import Mathlib

/-!
Verification of the scoring and ranking engine of the excelr8 CTF platform.

The definitions below are a shallow embedding of the Python source:
  * src/ctf/models.py   — Challenge.current_value, Team.total_score,
    Team.solved_challenges, Team.last_solve_time, Submission.save,
    Hint / HintUnlock
  * src/ctf/views.py    — scoreboard, scoreboard_timeseries_json

Database rows become Lean structures; Django querysets over a table become
lists; timestamps are integers; the float decay factor is modelled as an
exact rational.  Foreign keys to challenges and hints are embedded inline
(the engine only reads their fields), while team references stay as
optional team ids, exactly as the nullable Submission.team / HintUnlock.team
columns.
-/

namespace CTFPlat

/-- Python str.strip(): drop leading and trailing whitespace (strings are
modelled as lists of characters so that comparisons stay fully
computable). -/
def trimChars (l : List Char) : List Char :=
  ((l.dropWhile Char.isWhitespace).reverse.dropWhile Char.isWhitespace).reverse

/-- Python str.lower(): fold every character to lower case. -/
def lowerChars (l : List Char) : List Char :=
  l.map Char.toLower

/-- A challenge row (src/ctf/models.py, class Challenge).  Only the fields
read by the scoring engine are kept.  `value`, `initial_value`,
`minimum_value` are Django IntegerFields, `decay_factor` a FloatField
modelled as an exact rational, `flag` a string (list of characters),
`case_sensitive` a bool. -/
structure Challenge where
  id : Nat
  value : Int
  flag : List Char
  case_sensitive : Bool
  initial_value : Int
  minimum_value : Int
  decay_factor : ℚ
deriving DecidableEq, Repr

/-- A team row (src/ctf/models.py, class Team): member user ids,
registration timestamp, active flag. -/
structure Team where
  id : Nat
  members : List Nat
  registered_at : Int
  is_active : Bool
deriving DecidableEq, Repr

/-- A submission row (src/ctf/models.py, class Submission).  The team
foreign key is nullable; the challenge foreign key is embedded inline. -/
structure Submission where
  id : Nat
  user : Nat
  team : Option Nat
  challenge : Challenge
  timestamp : Int
  correct : Bool
deriving DecidableEq, Repr

/-- A hint row (src/ctf/models.py, class Hint): cost is a
PositiveIntegerField, hence a natural number. -/
structure Hint where
  id : Nat
  cost : Nat
deriving DecidableEq, Repr

/-- A hint-unlock row (src/ctf/models.py, class HintUnlock); the team
foreign key is nullable, the hint is embedded inline. -/
structure HintUnlock where
  id : Nat
  user : Nat
  team : Option Nat
  hint : Hint
deriving DecidableEq, Repr

/-- Python `int()` applied to a real quantity truncates toward zero:
floor for nonnegative arguments, ceiling for negative ones.  Used to embed
`int(self.initial_value * (self.decay_factor ** solve_count))`. -/
def pyInt (q : ℚ) : Int :=
  if 0 ≤ q then ⌊q⌋ else ⌈q⌉

/-- Challenge.current_value (src/ctf/models.py lines 174-187) with the
competition settings flag and the challenge's global correct-solve count
passed explicitly.  When dynamic scoring is off it returns `value`; with no
solves it returns `initial_value`; otherwise
`max(int(initial_value * decay_factor ** solve_count), minimum_value)`. -/
def current_value (c : Challenge) (solve_count : Nat) (dynamic_scoring : Bool) : Int :=
  if !dynamic_scoring then c.value
  else if solve_count = 0 then c.initial_value
  else max (pyInt ((c.initial_value : ℚ) * c.decay_factor ^ solve_count)) c.minimum_value

/-- Submission.save flag check (src/ctf/models.py lines 278-285): when the
submitted flag is the empty string the Python guard `if self.submitted_flag`
is falsy and `correct` keeps its default False; otherwise both sides are
stripped and compared, lowercasing both when the challenge is not
case-sensitive. -/
def is_correct (c : Challenge) (submitted : List Char) : Bool :=
  if submitted = [] then false
  else if c.case_sensitive then trimChars submitted = trimChars c.flag
  else lowerChars (trimChars submitted) = lowerChars (trimChars c.flag)

/-- The rows of the Submission table whose team foreign key is this team
and which are correct: `self.submissions.filter(correct=True)` in
Team.total_score. -/
def team_correct_submissions (team : Team) (subs : List Submission) : List Submission :=
  subs.filter fun s => s.correct && s.team = some team.id

/-- The rows of the HintUnlock table whose team foreign key is this team:
`self.hint_unlocks.all()` in Team.total_score. -/
def team_hint_unlocks (team : Team) (unlocks : List HintUnlock) : List HintUnlock :=
  unlocks.filter fun u => u.team = some team.id

/-- Team.total_score (src/ctf/models.py lines 203-212): start from 0, add
`submission.challenge.value` for every correct submission whose team field
is this team, subtract `unlock.hint.cost` for every hint unlock whose team
field is this team, and finally clamp with `max(0, total)`. -/
def total_score (team : Team) (subs : List Submission) (unlocks : List HintUnlock) : Int :=
  let t1 := (team_correct_submissions team subs).foldl (fun acc s => acc + s.challenge.value) 0
  let t2 := (team_hint_unlocks team unlocks).foldl (fun acc u => acc - (u.hint.cost : Int)) t1
  max 0 t2

/-- Sum of the challenge values of the team's correct directly-linked
submissions (the aggregated credit before hint deduction). -/
def creditSum (team : Team) (subs : List Submission) : Int :=
  ((team_correct_submissions team subs).map fun s => s.challenge.value).sum

/-- Sum of the hint costs of the team's directly-linked hint unlocks. -/
def hintCostSum (team : Team) (unlocks : List HintUnlock) : Int :=
  ((team_hint_unlocks team unlocks).map fun u => (u.hint.cost : Int)).sum

/-- Team.solved_challenges (src/ctf/models.py lines 214-218) reduced to the
ids it is built from: the distinct challenge ids of the team's correct
directly-linked submissions (`values_list('challenge_id')` followed by an
`id__in` filter, which deduplicates). -/
def solved_challenge_ids (team : Team) (subs : List Submission) : List Nat :=
  ((team_correct_submissions team subs).map fun s => s.challenge.id).dedup

/-- Team.last_solve_time (src/ctf/models.py lines 220-224): the timestamp
of the most recent correct directly-linked submission, or `registered_at`
when there is none. -/
def last_solve_time (team : Team) (subs : List Submission) : Int :=
  (((team_correct_submissions team subs).map fun s => s.timestamp).max?).getD team.registered_at

/-! ### Leaderboard (src/ctf/views.py, scoreboard, lines 280-299) -/

/-- One row of the scoreboard view's team_data list. -/
structure ScoreRow where
  team_id : Nat
  score : Int
  solve_count : Nat
  last_solve : Int
deriving DecidableEq, Repr

/-- The scoreboard view's per-team annotation
`Count('submissions', filter=Q(submissions__correct=True))`: the raw number
of correct submissions whose team foreign key is this team. -/
def scoreboard_solve_count (team : Team) (subs : List Submission) : Nat :=
  (team_correct_submissions team subs).length

/-- One entry of team_data built in the scoreboard view (src/ctf/views.py
lines 289-294). -/
def scoreboard_row (subs : List Submission) (unlocks : List HintUnlock) (t : Team) : ScoreRow :=
  ⟨t.id, total_score t subs unlocks, scoreboard_solve_count t subs, last_solve_time t subs⟩

/-- The sort key comparison of
`team_data.sort(key=lambda x: (-x['score'], x['last_solve']))`:
lexicographic on (negated score, last solve time). -/
def rowLE (a b : ScoreRow) : Bool :=
  decide (b.score < a.score) || (a.score = b.score && decide (a.last_solve ≤ b.last_solve))

/-- The scoreboard view (src/ctf/views.py lines 280-299): build a row for
every active team and sort by (-score, last_solve) ascending (Python's
stable sort, modelled by mergeSort). -/
def scoreboard (teams : List Team) (subs : List Submission) (unlocks : List HintUnlock) :
    List ScoreRow :=
  ((teams.filter fun t => t.is_active).map (scoreboard_row subs unlocks)).mergeSort rowLE

/-! ### Timeline (src/ctf/views.py, scoreboard_timeseries_json, lines 320-362) -/

/-- One point of a team's cumulative series: timestamp and cumulative
score. -/
structure TPoint where
  t : Int
  y : Int
deriving DecidableEq, Repr

/-- The candidate submissions of one team's series (src/ctf/views.py lines
331-339): `Q(correct=True) & (Q(team=team) | Q(user_id__in=member_ids))`. -/
def timeline_candidates (team : Team) (subs : List Submission) : List Submission :=
  subs.filter fun s => s.correct && (s.team = some team.id || team.members.contains s.user)

/-- The `order_by('timestamp', 'id')` comparison: lexicographic on
(timestamp, id). -/
def subLE (a b : Submission) : Bool :=
  decide (a.timestamp < b.timestamp) || (a.timestamp = b.timestamp && decide (a.id ≤ b.id))

/-- The candidate submissions in the order the view iterates them. -/
def timeline_events (team : Team) (subs : List Submission) : List Submission :=
  (timeline_candidates team subs).mergeSort subLE

/-- The loop of src/ctf/views.py lines 349-355: walk the ordered
submissions, skip ids already seen, and otherwise add the challenge's value
to the running cumulative score and emit a point.  Returns the emitted
points and the final cumulative value. -/
def timelineWalk : List Submission → List Nat → Int → List TPoint × Int
  | [], _, cum => ([], cum)
  | s :: rest, seen, cum =>
    if seen.contains s.id then timelineWalk rest seen cum
    else
      let cum2 := cum + s.challenge.value
      let r := timelineWalk rest (s.id :: seen) cum2
      (⟨s.timestamp, cum2⟩ :: r.1, r.2)

/-- One team's series in scoreboard_timeseries_json: a baseline point at
registration with score 0, one point per retained submission, and a final
point at the current time carrying the last cumulative value. -/
def timeline (team : Team) (subs : List Submission) (now : Int) : List TPoint :=
  let r := timelineWalk (timeline_events team subs) [] 0
  ⟨team.registered_at, 0⟩ :: r.1 ++ [⟨now, r.2⟩]

/-- The id-keyed deduplication the walk performs: keep a submission when
its id has not occurred before (neither in the accumulator nor earlier in
the list). -/
def dedupById : List Submission → List Nat → List Submission
  | [], _ => []
  | s :: rest, seen =>
    if seen.contains s.id then dedupById rest seen
    else s :: dedupById rest (s.id :: seen)

/-! ### Spec-side comparison definitions

These two definitions follow the spec's words, not the source; they exist
only to be compared with the source-derived definitions above. -/

/-- The spec's attribution rule for score aggregation (spec §4.3): a
submission counts for the team when it is correct and either references the
team directly or has a null team and was submitted by a current member. -/
def attributable_spec (team : Team) (s : Submission) : Bool :=
  s.correct && (s.team = some team.id || (s.team = none && team.members.contains s.user))

/-- TeamScore as the spec §4.3 words it (static scoring): sum the values of
all correct attributable submissions, subtract the costs of all
attributable hint unlocks, clamp at zero. -/
def total_score_spec (team : Team) (subs : List Submission) (unlocks : List HintUnlock) : Int :=
  let credit := ((subs.filter (attributable_spec team)).map fun s => s.challenge.value).sum
  let cost := ((unlocks.filter fun u =>
    u.team = some team.id || (u.team = none && team.members.contains u.user)).map
      fun u => (u.hint.cost : Int)).sum
  max 0 (credit - cost)

/-- lastSolveTime as the spec §4.4 words it: the timestamp of the most
recent correct team-attributable submission, or registered_at if none. -/
def last_solve_time_spec (team : Team) (subs : List Submission) : Int :=
  (((subs.filter (attributable_spec team)).map fun s => s.timestamp).max?).getD
    team.registered_at

/-! ### Concrete instances used by witnesses and counterexamples -/

/-- Concrete challenge for the C4 witness: the spec §8 scenario with value
500, initial 500, minimum 100, decay 0.8. -/
def chalC4 : Challenge := ⟨1, 500, [], false, 500, 100, 8/10⟩

/-- Concrete challenge for C9: decay factor 2, outside (0,1]. -/
def chalC9 : Challenge := ⟨2, 100, [], false, 100, 50, 2⟩

/-- Concrete challenge for the C8 counterexample: empty stored flag. -/
def chalC8 : Challenge := ⟨3, 100, [], false, 100, 50, 1⟩

/-- Concrete challenge for the C8 witness: mixed-case flag, not
case-sensitive. -/
def chalC8b : Challenge := ⟨4, 100, "Secret42".data, false, 100, 50, 1⟩

/-- Concrete data for C1: one team, one member, a 100-point challenge. -/
def teamC1 : Team := ⟨1, [10], 0, true⟩

/-- The 100-point challenge solved by teamC1. -/
def chalC1 : Challenge := ⟨5, 100, [], false, 100, 50, 1⟩

/-- First correct submission of teamC1 for chalC1. -/
def subC1a : Submission := ⟨1, 10, some 1, chalC1, 1, true⟩

/-- A second correct submission of teamC1 for the same, already solved,
challenge. -/
def subC1b : Submission := ⟨2, 10, some 1, chalC1, 2, true⟩

/-- Concrete data for C2: a team with member 10, a legacy null-team
submission by that member, a direct-team submission, and a legacy null-team
hint unlock by that member. -/
def teamC2 : Team := ⟨2, [10], 0, true⟩

/-- The 100-point challenge used in the C2 counterexample. -/
def chalC2 : Challenge := ⟨6, 100, [], false, 100, 50, 1⟩

/-- A correct legacy submission with null team by a current member of
teamC2. -/
def subC2 : Submission := ⟨3, 10, none, chalC2, 5, true⟩

/-- A correct submission directly linked to teamC2. -/
def subC2b : Submission := ⟨4, 10, some 2, chalC2, 6, true⟩

/-- A hint unlock with null team by a current member of teamC2, costing
30. -/
def unlockC2 : HintUnlock := ⟨1, 10, none, ⟨1, 30⟩⟩

/-- Concrete data for C6: two correct submissions by the same team for the
same challenge. -/
def teamC6 : Team := ⟨6, [20], 0, true⟩

/-- The challenge solved twice in the C6 counterexample. -/
def chalC6 : Challenge := ⟨7, 100, [], false, 100, 50, 1⟩

/-- First correct submission of teamC6. -/
def subC6a : Submission := ⟨10, 20, some 6, chalC6, 1, true⟩

/-- Second correct submission of teamC6 for the same challenge. -/
def subC6b : Submission := ⟨11, 20, some 6, chalC6, 2, true⟩

/-- Concrete data for C7: a team that solves the same challenge twice. -/
def teamC7 : Team := ⟨7, [], 0, true⟩

/-- The 100-point challenge solved twice in the C7 counterexample. -/
def chalC7 : Challenge := ⟨9, 100, [], false, 100, 50, 1⟩

/-- First correct submission in the C7 walk. -/
def subC7a : Submission := ⟨1, 30, some 7, chalC7, 1, true⟩

/-- Second correct submission in the C7 walk, same challenge, later
timestamp, distinct id. -/
def subC7b : Submission := ⟨2, 30, some 7, chalC7, 2, true⟩

/-- Concrete data for C10: a submission directly linked to one team whose
user is also a current member of a second team. -/
def chalC10 : Challenge := ⟨12, 100, [], false, 100, 50, 1⟩

/-- Team directly referenced by the C10 submission. -/
def teamC10a : Team := ⟨21, [], 0, true⟩

/-- A second team containing the submitting user as current member. -/
def teamC10b : Team := ⟨22, [40], 5, true⟩

/-- The single correct submission credited to both teams. -/
def subC10 : Submission := ⟨30, 40, some 21, chalC10, 1, true⟩

/-- Concrete data for C5: a legacy null-team submission by a current
member. -/
def chalC5 : Challenge := ⟨13, 100, [], false, 100, 50, 1⟩

/-- Team whose member made the legacy submission. -/
def teamC5 : Team := ⟨31, [50], 0, true⟩

/-- Correct legacy submission with null team by a current member of
teamC5, at time 100. -/
def subC5 : Submission := ⟨40, 50, none, chalC5, 100, true⟩

/-! ### Helper lemmas -/

theorem foldl_add_value (l : List Submission) (init : Int) :
    l.foldl (fun acc s => acc + s.challenge.value) init
      = init + (l.map fun s => s.challenge.value).sum := by
  induction l generalizing init with
  | nil => simp
  | cons s rest ih => simp [List.foldl_cons, ih]; ring

theorem foldl_sub_cost (l : List HintUnlock) (init : Int) :
    l.foldl (fun acc u => acc - (u.hint.cost : Int)) init
      = init - (l.map fun u => (u.hint.cost : Int)).sum := by
  induction l generalizing init with
  | nil => simp
  | cons u rest ih => simp [List.foldl_cons, ih]; ring

/-- The two accumulation loops of Team.total_score compute the aggregated
credit minus the aggregated hint cost, clamped once at the end. -/
theorem total_score_eq (team : Team) (subs : List Submission) (unlocks : List HintUnlock) :
    total_score team subs unlocks = max 0 (creditSum team subs - hintCostSum team unlocks) := by
  simp [total_score, creditSum, hintCostSum, foldl_add_value, foldl_sub_cost]

/-- The final cumulative value of the timeline walk is the starting value
plus the challenge values of the submissions retained by id-keyed
deduplication. -/
theorem timelineWalk_snd (l : List Submission) (seen : List Nat) (cum : Int) :
    (timelineWalk l seen cum).2
      = cum + ((dedupById l seen).map fun s => s.challenge.value).sum := by
  induction l generalizing seen cum with
  | nil => simp [timelineWalk, dedupById]
  | cons s rest ih =>
    by_cases h : s.id ∈ seen
    · simp [timelineWalk, dedupById, h, ih]
    · simp [timelineWalk, dedupById, h, ih]
      ring

/-! ### Claims -/

/-- C3: for every team and every combination of submissions and hint
unlocks, TeamScore equals max(0, sum of solve credits minus sum of
attributable hint costs) and is therefore never negative; the clamp to zero
is applied exactly once to the fully aggregated total, not per submission
or per unlock. -/
theorem C3_score_clamped_once_nonneg (team : Team) (subs : List Submission)
    (unlocks : List HintUnlock) :
    total_score team subs unlocks = max 0 (creditSum team subs - hintCostSum team unlocks)
    ∧ 0 ≤ total_score team subs unlocks := by
  refine ⟨total_score_eq team subs unlocks, ?_⟩
  rw [total_score_eq]
  exact le_max_left 0 _

/-- C4: CurrentValue returns the plain value when dynamic scoring is off,
the initial value at solve count zero, and otherwise the floor of
initial_value * decay_factor ^ solveCount clamped to be at least
minimum_value (under the data-model invariants that initial_value and
decay_factor are nonnegative, which make Python's int() truncation agree
with the floor). -/
theorem C4_current_value_cases (c : Challenge) (sc : Nat) :
    current_value c sc false = c.value
    ∧ current_value c 0 true = c.initial_value
    ∧ (0 < sc → 0 ≤ c.initial_value → 0 ≤ c.decay_factor →
        current_value c sc true
          = max ⌊(c.initial_value : ℚ) * c.decay_factor ^ sc⌋ c.minimum_value) := by
  refine ⟨by simp [current_value], by simp [current_value], ?_⟩
  intro hsc h1 h2
  have hne : sc ≠ 0 := Nat.pos_iff_ne_zero.mp hsc
  have hq : 0 ≤ (c.initial_value : ℚ) * c.decay_factor ^ sc := by
    have h1q : (0 : ℚ) ≤ (c.initial_value : ℚ) := by exact_mod_cast h1
    exact mul_nonneg h1q (pow_nonneg h2 sc)
  simp [current_value, hne, pyInt, hq]

/-- C4 witness: the hypotheses hold for the concrete challenge, and at
solve count 2 the theorem yields the clamped floor, which evaluates to 320
(the spec's third-solver value). -/
theorem C4_witness :
    (0 < 2 ∧ (0 : Int) ≤ chalC4.initial_value ∧ (0 : ℚ) ≤ chalC4.decay_factor)
    ∧ current_value chalC4 2 true
        = max ⌊(chalC4.initial_value : ℚ) * chalC4.decay_factor ^ 2⌋ chalC4.minimum_value
    ∧ current_value chalC4 2 true = 320 :=
  ⟨⟨by decide, by norm_num [chalC4], by norm_num [chalC4]⟩,
   (C4_current_value_cases chalC4 2).2.2 (by decide) (by norm_num [chalC4]) (by norm_num [chalC4]),
   by norm_num [current_value, pyInt, chalC4]⟩

/-- C9 counterexample: with decay_factor 2 (outside (0,1]), one solve and
dynamic scoring on, current_value returns 200, strictly above
initial_value 100 — the result is not clamped into
[minimum_value, initial_value] as the claim states. -/
theorem C9_counterexample :
    1 < chalC9.decay_factor
    ∧ current_value chalC9 1 true = 200
    ∧ chalC9.initial_value = 100
    ∧ ¬ current_value chalC9 1 true ≤ chalC9.initial_value := by
  refine ⟨by norm_num [chalC9], ?_, by norm_num [chalC9], ?_⟩ <;>
    norm_num [current_value, pyInt, chalC9]

/-- C9 amended: for decay factors outside (0,1] (indeed for any decay
factor) with a positive solve count and dynamic scoring enabled, the value
is clamped from below only: it is always at least minimum_value — hence
nonnegative whenever minimum_value is — but it is not clamped from above
and may exceed initial_value. -/
theorem C9_lower_clamp_only (c : Challenge) (sc : Nat) (hsc : 0 < sc) :
    c.minimum_value ≤ current_value c sc true
    ∧ (0 ≤ c.minimum_value → 0 ≤ current_value c sc true) := by
  have hne : sc ≠ 0 := Nat.pos_iff_ne_zero.mp hsc
  have e : current_value c sc true
      = max (pyInt ((c.initial_value : ℚ) * c.decay_factor ^ sc)) c.minimum_value := by
    simp [current_value, hne]
  rw [e]
  exact ⟨le_max_right _ _, fun h0 => le_trans h0 (le_max_right _ _)⟩

/-- C9 witness: the amended theorem applied to the concrete decay-2
challenge at solve count 1. -/
theorem C9_witness :
    0 < 1
    ∧ chalC9.minimum_value ≤ current_value chalC9 1 true
    ∧ (0 ≤ chalC9.minimum_value → 0 ≤ current_value chalC9 1 true) :=
  ⟨by decide, C9_lower_clamp_only chalC9 1 (by decide)⟩

/-- C8 counterexample: the stored flag is empty after trimming, yet the
empty submitted text yields false — the Python guard skips the comparison
for falsy (empty) submissions, so the claim's "returns true when the flag
itself is empty after trimming" fails. -/
theorem C8_counterexample :
    trimChars chalC8.flag = []
    ∧ is_correct chalC8 [] = false := by
  decide

/-- C8 amended: IsCorrect trims both sides and compares them
case-insensitively (folding both to lower case) when the challenge is not
case-sensitive, and exactly otherwise, always returning a boolean — except
that for empty submitted text it returns false unconditionally, even when
the flag itself is empty after trimming. -/
theorem C8_flag_matching (c : Challenge) (t : List Char) :
    is_correct c [] = false
    ∧ (t ≠ [] →
        (is_correct c t = true ↔
          if c.case_sensitive then trimChars t = trimChars c.flag
          else lowerChars (trimChars t) = lowerChars (trimChars c.flag))) := by
  refine ⟨by simp [is_correct], fun ht => ?_⟩
  by_cases hcs : c.case_sensitive <;> simp [is_correct, ht, hcs]

/-- C8 witness: a nonempty submission differing in case and padding from
the stored flag satisfies the trimmed, case-folded comparison and is
accepted. -/
theorem C8_witness :
    (" sEcReT42 ".data ≠ ([] : List Char))
    ∧ (is_correct chalC8b " sEcReT42 ".data = true ↔
        if chalC8b.case_sensitive then trimChars " sEcReT42 ".data = trimChars chalC8b.flag
        else lowerChars (trimChars " sEcReT42 ".data) = lowerChars (trimChars chalC8b.flag))
    ∧ is_correct chalC8b " sEcReT42 ".data = true :=
  ⟨by decide, (C8_flag_matching chalC8b " sEcReT42 ".data).2 (by decide), by decide⟩

/-- C1 counterexample: adding a further correct team-linked submission for
a challenge the team has already solved raises total_score from 100 to 200
while the number of solved challenge ids stays 1 — under static scoring
the credit is applied per correct submission, not once per
(team, challenge) pair, so TeamScore does change. -/
theorem C1_counterexample :
    total_score teamC1 [subC1a] [] = 100
    ∧ total_score teamC1 [subC1b, subC1a] [] = 200
    ∧ (solved_challenge_ids teamC1 [subC1b, subC1a]).length
        = (solved_challenge_ids teamC1 [subC1a]).length
    ∧ ¬ total_score teamC1 [subC1b, subC1a] [] = total_score teamC1 [subC1a] [] := by
  decide

/-- C1 amended: adding a further correct team-linked submission for a
challenge the team has already solved leaves the solved-challenge-id set
unchanged, but adds the challenge's value to the aggregated pre-clamp
total: TeamScore changes whenever the zero clamp is not binding, because
the credit is applied once per correct submission rather than once per
(team, challenge) pair. -/
theorem C1_resubmission_adds_value (team : Team) (subs : List Submission)
    (unlocks : List HintUnlock) (s : Submission)
    (hc : s.correct = true) (ht : s.team = some team.id)
    (hm : s.challenge.id ∈ solved_challenge_ids team subs) :
    solved_challenge_ids team (s :: subs) = solved_challenge_ids team subs
    ∧ total_score team (s :: subs) unlocks
        = max 0 (s.challenge.value + creditSum team subs - hintCostSum team unlocks) := by
  have hsel : team_correct_submissions team (s :: subs)
      = s :: team_correct_submissions team subs := by
    simp [team_correct_submissions, List.filter_cons, hc, ht]
  have hmem : s.challenge.id
      ∈ (team_correct_submissions team subs).map fun x => x.challenge.id := by
    have := hm
    simpa [solved_challenge_ids, List.mem_dedup] using this
  constructor
  · simp [solved_challenge_ids, hsel, List.dedup_cons_of_mem hmem]
  · rw [total_score_eq]
    have hcred : creditSum team (s :: subs) = s.challenge.value + creditSum team subs := by
      simp [creditSum, hsel]
    rw [hcred]

/-- C1 witness: the amended theorem applied to the concrete resubmission
scenario, yielding the 200 = max(0, 100 + 100 - 0) total. -/
theorem C1_witness :
    (subC1b.correct = true ∧ subC1b.team = some teamC1.id
      ∧ subC1b.challenge.id ∈ solved_challenge_ids teamC1 [subC1a])
    ∧ solved_challenge_ids teamC1 (subC1b :: [subC1a]) = solved_challenge_ids teamC1 [subC1a]
    ∧ total_score teamC1 (subC1b :: [subC1a]) []
        = max 0 (subC1b.challenge.value + creditSum teamC1 [subC1a] - hintCostSum teamC1 []) :=
  ⟨⟨rfl, rfl, by decide⟩,
   C1_resubmission_adds_value teamC1 [subC1a] [] subC1b rfl rfl (by decide)⟩

/-- C2 counterexample: the spec's attribution rule credits the legacy
null-team member submission (score 100) and deducts the legacy null-team
member hint unlock (score 70), but Team.total_score selects only rows
whose team foreign key references the team directly, giving 0 and 100
respectively. -/
theorem C2_counterexample :
    total_score_spec teamC2 [subC2] [] = 100
    ∧ total_score teamC2 [subC2] [] = 0
    ∧ total_score_spec teamC2 [subC2b] [unlockC2] = 70
    ∧ total_score teamC2 [subC2b] [unlockC2] = 100
    ∧ ¬ total_score teamC2 [subC2] [] = total_score_spec teamC2 [subC2] [] := by
  decide

/-- C2 amended: TeamScore selects exactly the submissions that are correct
and whose team field references the team directly — a null-team submission
is never attributed to the team, even when the submitting user is a
current member — and it deducts the cost of exactly the hint unlocks whose
team field references the team directly, under the same direct-reference
rule. -/
theorem C2_direct_attribution_only (team : Team) (subs : List Submission)
    (unlocks : List HintUnlock) (s : Submission) (u : HintUnlock) :
    total_score team subs unlocks = max 0 (creditSum team subs - hintCostSum team unlocks)
    ∧ creditSum team (s :: subs)
        = (if s.correct = true ∧ s.team = some team.id then s.challenge.value else 0)
          + creditSum team subs
    ∧ hintCostSum team (u :: unlocks)
        = (if u.team = some team.id then (u.hint.cost : Int) else 0)
          + hintCostSum team unlocks := by
  refine ⟨total_score_eq team subs unlocks, ?_, ?_⟩
  · by_cases h : s.correct = true ∧ s.team = some team.id
    · simp [creditSum, team_correct_submissions, List.filter_cons, h.1, h.2]
    · rw [if_neg h]
      have hb : ¬ (s.correct && decide (s.team = some team.id)) = true := by
        simpa [Bool.and_eq_true, decide_eq_true_eq] using h
      simp [creditSum, team_correct_submissions, List.filter_cons, hb]
  · by_cases h : u.team = some team.id
    · simp [hintCostSum, team_hint_unlocks, List.filter_cons, h]
    · simp [hintCostSum, team_hint_unlocks, List.filter_cons, h]

/-- C6 counterexample: with two correct submissions for the same
challenge, the scoreboard row reports solve_count 2 (the raw count of
correct team-linked submissions) while the cardinality of the distinct
solved challenge ids is 1. -/
theorem C6_counterexample :
    (scoreboard_row [subC6a, subC6b] [] teamC6).solve_count = 2
    ∧ (solved_challenge_ids teamC6 [subC6a, subC6b]).length = 1
    ∧ ¬ (scoreboard_row [subC6a, subC6b] [] teamC6).solve_count
        = (solved_challenge_ids teamC6 [subC6a, subC6b]).length := by
  decide

/-- C6 amended: the solveCount reported by the scoreboard is the raw
number of correct team-linked submissions; it equals the cardinality of
solvedChallengeIds exactly in the duplicate-free case, i.e. whenever the
team has at most one correct submission per challenge. -/
theorem C6_solve_count_raw (team : Team) (subs : List Submission)
    (unlocks : List HintUnlock)
    (h : (((team_correct_submissions team subs)).map fun s => s.challenge.id).Nodup) :
    (scoreboard_row subs unlocks team).solve_count
        = (team_correct_submissions team subs).length
    ∧ (scoreboard_row subs unlocks team).solve_count
        = (solved_challenge_ids team subs).length := by
  refine ⟨rfl, ?_⟩
  have hd : (((team_correct_submissions team subs)).map fun s => s.challenge.id).dedup
      = ((team_correct_submissions team subs)).map fun s => s.challenge.id :=
    List.dedup_eq_self.mpr h
  simp [scoreboard_row, scoreboard_solve_count, solved_challenge_ids, hd]

/-- C6 witness: with a single correct submission the challenge-id list is
duplicate-free and the scoreboard solve count agrees with the solved-id
cardinality. -/
theorem C6_witness :
    ((team_correct_submissions teamC6 [subC6a]).map fun s => s.challenge.id).Nodup
    ∧ (scoreboard_row [subC6a] [] teamC6).solve_count
        = (team_correct_submissions teamC6 [subC6a]).length
    ∧ (scoreboard_row [subC6a] [] teamC6).solve_count
        = (solved_challenge_ids teamC6 [subC6a]).length :=
  ⟨by decide, C6_solve_count_raw teamC6 [subC6a] [] (by decide)⟩

/-- C7 counterexample: both events reference the same challenge, yet the
cumulative series rises 0, 100, 200 — the second correct submission for
the already-solved challenge contributes the challenge's full value again,
not zero. -/
theorem C7_counterexample :
    subC7a.challenge = subC7b.challenge
    ∧ timeline teamC7 [subC7a, subC7b] 10
        = [⟨0, 0⟩, ⟨1, 100⟩, ⟨2, 200⟩, ⟨10, 200⟩] := by
  have hc : timeline_candidates teamC7 [subC7a, subC7b] = [subC7a, subC7b] := by decide
  have hs : List.Pairwise (fun a b => subLE a b = true) [subC7a, subC7b] := by decide
  have he : timeline_events teamC7 [subC7a, subC7b] = [subC7a, subC7b] := by
    rw [timeline_events, hc]
    exact List.mergeSort_of_sorted hs
  refine ⟨by decide, ?_⟩
  rw [timeline, he]
  decide

/-- C7 amended: the walk deduplicates by submission identity only, not per
challenge: every event whose id has not been seen adds its challenge's
full value to the cumulative score — also when an earlier event already
solved the same challenge — and the final cumulative value is the sum of
the challenge values of all identity-distinct qualifying submissions. -/
theorem C7_credit_per_event (team : Team) (subs : List Submission)
    (s : Submission) (rest : List Submission) (seen : List Nat) (cum : Int)
    (h : s.id ∉ seen) :
    (timelineWalk (s :: rest) seen cum).1.head? = some ⟨s.timestamp, cum + s.challenge.value⟩
    ∧ (timelineWalk (timeline_events team subs) [] 0).2
        = ((dedupById (timeline_events team subs) []).map fun x => x.challenge.value).sum := by
  constructor
  · simp [timelineWalk, h]
  · simp [timelineWalk_snd]

/-- C7 witness: applied to the duplicate-solve scenario: the second event
adds the full 100 on top of the first 100 even though its challenge is
already solved, and the walk total over the two events is 200. -/
theorem C7_witness :
    (subC7b.id ∉ [subC7a.id])
    ∧ (timelineWalk [subC7b] [subC7a.id] 100).1.head?
        = some ⟨subC7b.timestamp, 100 + subC7b.challenge.value⟩
    ∧ (timelineWalk (timeline_events teamC7 [subC7a, subC7b]) [] 0).2
        = ((dedupById (timeline_events teamC7 [subC7a, subC7b]) []).map
            fun x => x.challenge.value).sum :=
  ⟨by decide, (C7_credit_per_event teamC7 [subC7a, subC7b] subC7b [] [subC7a.id] 100
      (by decide)).1,
   (C7_credit_per_event teamC7 [subC7a, subC7b] subC7b [] [subC7a.id] 100 (by decide)).2⟩

/-- C10: a correct submission qualifies for a team's timeline exactly when
its team field references the team directly or its user is a current
member of the team — with no restriction to null-team rows and no rule
selecting a unique team, so the same submission can qualify for several
teams at once. -/
theorem C10_candidate_membership (team : Team) (subs : List Submission)
    (s : Submission) (h : s ∈ subs) :
    s ∈ timeline_events team subs
      ↔ (s.correct = true ∧ (s.team = some team.id ∨ s.user ∈ team.members)) := by
  rw [timeline_events, (List.mergeSort_perm (timeline_candidates team subs) subLE).mem_iff]
  simp [timeline_candidates, List.mem_filter, h]

/-- C10 witness: the one correct submission is a timeline event of both
the directly-referenced team and the team that merely contains the user,
at the same time. -/
theorem C10_witness :
    subC10 ∈ [subC10]
    ∧ subC10 ∈ timeline_events teamC10a [subC10]
    ∧ subC10 ∈ timeline_events teamC10b [subC10] :=
  ⟨by decide,
   (C10_candidate_membership teamC10a [subC10] subC10 (by decide)).mpr
     ⟨rfl, Or.inl rfl⟩,
   (C10_candidate_membership teamC10b [subC10] subC10 (by decide)).mpr
     ⟨rfl, Or.inr (by decide)⟩⟩

/-- C5 counterexample: the claim's lastSolveTime (most recent correct
team-attributable submission) is 100 for the legacy member submission,
but Team.last_solve_time only looks at submissions whose team foreign key
references the team directly and falls back to registered_at = 0. -/
theorem C5_counterexample :
    last_solve_time teamC5 [subC5] = 0
    ∧ last_solve_time_spec teamC5 [subC5] = 100
    ∧ ¬ last_solve_time teamC5 [subC5] = last_solve_time_spec teamC5 [subC5] := by
  decide

/-- Transitivity of the scoreboard sort key (-score, last_solve). -/
theorem rowLE_trans : ∀ (a b c : ScoreRow), rowLE a b → rowLE b c → rowLE a c := by
  intro a b c hab hbc
  simp only [rowLE, Bool.or_eq_true, Bool.and_eq_true, decide_eq_true_eq] at hab hbc ⊢
  omega

/-- Totality of the scoreboard sort key. -/
theorem rowLE_total : ∀ (a b : ScoreRow), rowLE a b || rowLE b a := by
  intro a b
  simp only [rowLE, Bool.or_eq_true, Bool.and_eq_true, decide_eq_true_eq]
  omega

/-- C5 amended: the scoreboard is a permutation of one row per active team
and is ordered primarily by score descending with ties broken by
last-solve time ascending — where a team's last-solve time is the
timestamp of its most recent correct submission whose team field
references the team directly (legacy null-team member submissions are
ignored), or registered_at if there is none. -/
theorem C5_scoreboard_order (teams : List Team) (subs : List Submission)
    (unlocks : List HintUnlock) :
    (scoreboard teams subs unlocks).Pairwise
      (fun a b => b.score < a.score ∨ (a.score = b.score ∧ a.last_solve ≤ b.last_solve))
    ∧ (scoreboard teams subs unlocks).Perm
        ((teams.filter fun t => t.is_active).map (scoreboard_row subs unlocks)) := by
  constructor
  · have h := List.sorted_mergeSort rowLE_trans rowLE_total
      ((teams.filter fun t => t.is_active).map (scoreboard_row subs unlocks))
    refine h.imp ?_
    intro a b hab
    simpa [rowLE, Bool.or_eq_true, Bool.and_eq_true, decide_eq_true_eq] using hab
  · exact List.mergeSort_perm _ _

end CTFPlat
